import Mathlib

set_option maxRecDepth 16384

/-!
Verification development for the slackcli terminal client.

The definitions below are shallow embeddings of the TypeScript sources:
* `src/lib/slack-client.ts` — request dispatcher (`request`, `browserRequest`,
  `getUsersInfo`, `searchMessages` helpers);
* `src/commands/search.ts` — thread-link reconstruction (`formatMessageMatch`)
  and the `is:thread` query augmentation;
* `src/commands/users.ts` — the pagination loops (`--all` drain and single page);
* `src/lib/output.ts` (the jq-capable version) — the output pipeline;
* `src/commands/messages.ts` — the send action (allowed_targets gate, network
  call order);
* `src/commands/conversations.ts` — best-effort user enrichment;
* `src/lib/curl-parser.ts` — modelled from the specification (the module is not
  part of the sources at hand).

JavaScript truthiness on optional strings (`undefined` and `""` are falsy) is
made explicit through `jsTruthy`; effects (network requests, stdout/stderr,
process exit) are reified as event lists.
-/

namespace SlackCLI

/-- JS truthiness of an optional string: `undefined`/absent and `""` are falsy. -/
def jsTruthy : Option String → Bool
  | none => false
  | some s => s ≠ ""

/-- JS `a || b` on an optional string with a string default:
`data.error || 'Unknown API error'`. -/
def jsOrDefault (o : Option String) (d : String) : String :=
  match o with
  | none => d
  | some s => if s = "" then d else s

/-! ## Request dispatcher: envelope and failure semantics (`browserRequest`) -/

/-- The uniform response envelope `{ok, error?, ...}` returned by every remote
operation (payload fields are irrelevant to the failure semantics). -/
structure SlackEnvelope where
  ok : Bool
  error : Option String
deriving DecidableEq, Repr

/-- `fetch`'s `response.ok`: true exactly for HTTP status 200–299. -/
def fetchResponseOk (status : Nat) : Bool :=
  decide (200 ≤ status) && decide (status ≤ 299)

/-- Embedding of the response handling in `browserRequest`
(src/lib/slack-client.ts): a non-2xx status throws
`HTTP error! status: ...`; an envelope with `ok:false` throws its embedded
`error` string (falling back to `Unknown API error`); both throws are
re-wrapped by the surrounding catch as `Slack API error: ...`. Only a 2xx
status with an `ok:true` envelope returns successfully. -/
def browserHandleResponse (status : Nat) (env : SlackEnvelope) :
    Except String SlackEnvelope :=
  if fetchResponseOk status = false then
    Except.error ("Slack API error: HTTP error! status: " ++ toString status)
  else if env.ok = false then
    Except.error ("Slack API error: " ++ jsOrDefault env.error "Unknown API error")
  else
    Except.ok env

/-! ## Search query augmentation (`createSearchCommand`, standard branch) -/

/-- JS `String.prototype.includes`: substring occurrence. -/
def strContains (hay needle : String) : Bool :=
  decide (needle.data <:+: hay.data)

/-- Embedding of the standard-search query adjustment in
`src/commands/search.ts`:
`if (!options.topLevelOnly && !fullQuery.includes('is:thread'))
   fullQuery = fullQuery + ' is:thread'`. -/
def augmentSearchQuery (topLevelOnly : Bool) (q : String) : String :=
  if !topLevelOnly && !(strContains q "is:thread") then q ++ " is:thread" else q

lemma strContains_append_is_thread (q : String) :
    strContains (q ++ " is:thread") "is:thread" = true := by
  have h : ("is:thread".data) <:+: ((q ++ " is:thread").data) := by
    refine ⟨q.data ++ [' '], [], ?_⟩
    simp [String.data_append]
  simpa [strContains] using h

/-- **C8.** Without `--top-level-only` the query sent to the remote is
augmented with (and hence contains) the `is:thread` modifier, unless it
already contained it; with the switch, the query is sent unchanged. -/
theorem search_query_is_thread_augmentation (q : String) :
    augmentSearchQuery true q = q ∧
    strContains (augmentSearchQuery false q) "is:thread" = true ∧
    augmentSearchQuery false q =
      (if strContains q "is:thread" then q else q ++ " is:thread") := by
  refine ⟨by simp [augmentSearchQuery], ?_, ?_⟩
  · by_cases h : strContains q "is:thread"
    · simp [augmentSearchQuery, h]
    · simp only [augmentSearchQuery, Bool.not_true, Bool.not_false]
      simp [h, strContains_append_is_thread]
  · by_cases h : strContains q "is:thread" <;> simp [augmentSearchQuery, h]

/-- **C1.** If the envelope carries `ok:false` the call never returns a
successful result; on a 2xx status (HTTP 200 included) it fails with the
envelope's embedded error string; any non-2xx status fails unconditionally. -/
theorem browser_request_failure_semantics (status : Nat) (env : SlackEnvelope) :
    (env.ok = false → ∀ r, browserHandleResponse status env ≠ Except.ok r) ∧
    (fetchResponseOk status = true → env.ok = false → ∀ e, env.error = some e → e ≠ "" →
      browserHandleResponse status env = Except.error ("Slack API error: " ++ e)) ∧
    (fetchResponseOk status = false → ∀ r, browserHandleResponse status env ≠ Except.ok r) := by
  refine ⟨?_, ?_, ?_⟩
  · intro hok r
    by_cases hs : fetchResponseOk status = false <;>
      simp [browserHandleResponse, hs, hok]
  · intro hs hok e he hne
    simp [browserHandleResponse, hs, hok, jsOrDefault, he, hne]
  · intro hs r
    simp [browserHandleResponse, hs]

/-- **C1 witness.** Status 200 with envelope `{ok:false, error:"not_found"}`
yields the error `Slack API error: not_found`, never a success. -/
theorem browser_request_failure_semantics_witness :
    browserHandleResponse 200 ⟨false, some "not_found"⟩ =
      Except.error ("Slack API error: " ++ "not_found") :=
  (browser_request_failure_semantics 200 ⟨false, some "not_found"⟩).2.1
    (by decide) rfl "not_found" rfl (by decide)

/-! ## Pagination walker (`users list --all` drain loop, `users search` drain
loop, `users list` single page — src/commands/users.ts) -/

/-- One page returned by `client.listUsers`: a `members` array and the
`response_metadata?.next_cursor` continuation token. -/
structure UsersPage (α : Type) where
  members : List α
  next_cursor : Option String
deriving Repr

/-- JS truthiness of the cursor in `while (nextCursor)` / `!!nextCursor`:
absent and `""` terminate. -/
def cursorTruthy (c : Option String) : Bool := jsTruthy c

/-- Embedding of the drain-all `do { ... } while (nextCursor)` loop in
`users list --all` / `users search`: fetch the page for the current cursor,
append its members and continue while the returned cursor is truthy. `fuel`
bounds the recursion; every finite chain is drained within `fuel` equal to its
length. -/
def drainAllUsers (fetch : Option String → UsersPage α) :
    Nat → Option String → List α
  | 0, _ => []
  | fuel + 1, cursor =>
    let page := fetch cursor
    page.members ++
      (if cursorTruthy page.next_cursor then
        drainAllUsers fetch fuel page.next_cursor
      else [])

/-- Embedding of the single-page branch of `users list`: one fetch; the
members, `hasMore = !!nextCursor`, and the cursor are reported. -/
def singlePageUsers (fetch : Option String → UsersPage α) (cursor : Option String) :
    List α × Bool × Option String :=
  let page := fetch cursor
  (page.members, cursorTruthy page.next_cursor, page.next_cursor)

/-- `PageChain fetch c ps`: starting from cursor `c`, `fetch` returns exactly
the pages `ps` in order; every page but the last carries a truthy next cursor,
and the last page's next cursor is absent (falsy). -/
inductive PageChain (fetch : Option String → UsersPage α) :
    Option String → List (UsersPage α) → Prop
  | last (c : Option String) (p : UsersPage α) :
      fetch c = p → cursorTruthy p.next_cursor = false → PageChain fetch c [p]
  | cons (c : Option String) (p : UsersPage α) (ps : List (UsersPage α)) :
      fetch c = p → cursorTruthy p.next_cursor = true →
      PageChain fetch p.next_cursor ps → PageChain fetch c (p :: ps)

lemma drainAllUsers_of_chain {α : Type} {fetch : Option String → UsersPage α}
    {c : Option String} {ps : List (UsersPage α)} (h : PageChain fetch c ps) :
    ∀ fuel, ps.length ≤ fuel →
      drainAllUsers fetch fuel c = (ps.map UsersPage.members).flatten := by
  induction h with
  | last c p hf hc =>
    intro fuel hfuel
    match fuel, hfuel with
    | fuel + 1, _ =>
      simp [drainAllUsers, hf, hc]
  | cons c p ps hf hc _ ih =>
    intro fuel hfuel
    match fuel, hfuel with
    | fuel + 1, hfuel =>
      have hlen : ps.length ≤ fuel := Nat.le_of_succ_le_succ (by simpa using hfuel)
      simp [drainAllUsers, hf, hc, ih fuel hlen]

/-- **C2.** For chained pages `p1..pn` in which only `pn`'s next cursor is
absent, the drain-all loop returns the concatenation of the members in fetch
order, and the single-page branch returns exactly `p1`'s members with
`has_more` true exactly when `p1`'s next cursor is present (truthy). -/
theorem pagination_drain_all_and_single_page {α : Type}
    (fetch : Option String → UsersPage α) (c0 : Option String)
    (ps : List (UsersPage α)) (hchain : PageChain fetch c0 ps)
    (fuel : Nat) (hfuel : ps.length ≤ fuel) :
    drainAllUsers fetch fuel c0 = (ps.map UsersPage.members).flatten ∧
    ∀ p rest, ps = p :: rest →
      singlePageUsers fetch c0 =
        (p.members, cursorTruthy p.next_cursor, p.next_cursor) := by
  refine ⟨drainAllUsers_of_chain hchain fuel hfuel, ?_⟩
  intro p rest hps
  cases hchain with
  | last c q hf hc =>
    cases hps
    simp [singlePageUsers, hf]
  | cons c q qs hf hc _ =>
    cases hps
    simp [singlePageUsers, hf]

/-- Concrete two-page chain used by the pagination witness. -/
def witnessFetch : Option String → UsersPage String
  | none => ⟨["u1", "u2"], some "cur1"⟩
  | some "cur1" => ⟨["u3"], none⟩
  | some _ => ⟨[], none⟩

/-- **C2 witness.** On the concrete two-page chain, drain-all returns
`["u1","u2","u3"]` and the single-page branch returns page one's members with
`has_more = true`. -/
theorem pagination_drain_all_and_single_page_witness :
    drainAllUsers witnessFetch 2 none = ["u1", "u2", "u3"] ∧
    singlePageUsers witnessFetch none = (["u1", "u2"], true, some "cur1") := by
  have hchain : PageChain witnessFetch none
      [⟨["u1", "u2"], some "cur1"⟩, ⟨["u3"], none⟩] := by
    refine PageChain.cons none _ _ rfl (by decide) ?_
    exact PageChain.last (some "cur1") _ rfl (by decide)
  have h := pagination_drain_all_and_single_page witnessFetch none _ hchain 2
    (by decide)
  refine ⟨?_, ?_⟩
  · have := h.1
    simpa using this
  · have := h.2 ⟨["u1", "u2"], some "cur1"⟩ [⟨["u3"], none⟩] rfl
    simpa using this

/-! ## Thread-link reconstruction (`formatMessageMatch`, src/commands/search.ts) -/

/-- A raw search match as delivered by the remote: `ts`, optional `thread_ts`
and permalink, plus the pass-through fields. -/
structure RawMatch where
  ts : String
  text : Option String
  username : Option String
  user : Option String
  channel_id : Option String
  channel_name : Option String
  permalink : Option String
  thread_ts : Option String
  reply_count : Option Nat
deriving Repr

/-- The formatted match produced by `formatMessageMatch`. -/
structure MessageMatch where
  ts : String
  text : String
  username : Option String
  user : Option String
  channel_id : String
  channel_name : Option String
  permalink : Option String
  thread_ts : Option String
  reply_count : Option Nat
  is_thread_reply : Bool
deriving Repr

/-- A character matched by the `[0-9.]` class. -/
def isTsChar (c : Char) : Bool := c.isDigit || c == '.'

/-- Embedding of `permalink.match(/[?&]thread_ts=([0-9.]+)/)`: scan left to
right for a `?` or `&` followed by the literal `thread_ts=` and a non-empty
run of `[0-9.]` characters; the capture is the maximal such run at the first
matching position. -/
def extractThreadTs : List Char → Option String
  | [] => none
  | c :: rest =>
    if ((c == '?' || c == '&') && decide ("thread_ts=".data <+: rest)) = true then
      let run := (rest.drop 10).takeWhile isTsChar
      if run.isEmpty then extractThreadTs rest else some (String.mk run)
    else extractThreadTs rest

/-- Embedding of the `thread_ts` derivation in `formatMessageMatch`
(src/commands/search.ts lines 38–47): adopt the match's own `thread_ts` when
truthy; otherwise, when a permalink is present, adopt the value captured from
it, if any. -/
def computeThreadTs (m : RawMatch) : Option String :=
  let threadTs0 := if jsTruthy m.thread_ts then m.thread_ts else none
  if threadTs0.isNone && jsTruthy m.permalink then
    match extractThreadTs ((m.permalink.getD "").data) with
    | some t => some t
    | none => threadTs0
  else threadTs0

/-- Embedding of `formatMessageMatch`: derive `thread_ts` and classify via
`isThreadReply = threadTs ? threadTs !== match.ts : false`. -/
def formatMessageMatch (m : RawMatch) : MessageMatch :=
  let threadTs := computeThreadTs m
  { ts := m.ts
    text := jsOrDefault m.text ""
    username := m.username
    user := m.user
    channel_id := jsOrDefault m.channel_id ""
    channel_name := m.channel_name
    permalink := m.permalink
    thread_ts := threadTs
    reply_count := m.reply_count
    is_thread_reply := if jsTruthy threadTs then decide (threadTs.getD "" ≠ m.ts) else false }

lemma extractThreadTs_ne_empty {l : List Char} {t : String}
    (h : extractThreadTs l = some t) : t ≠ "" := by
  induction l with
  | nil => simp [extractThreadTs] at h
  | cons c rest ih =>
    rw [extractThreadTs] at h
    by_cases hc : ((c == '?' || c == '&') && decide ("thread_ts=".data <+: rest)) = true
    · rw [if_pos hc] at h
      by_cases hrun : ((rest.drop 10).takeWhile isTsChar).isEmpty
      · rw [if_pos hrun] at h
        exact ih h
      · rw [if_neg hrun] at h
        cases h
        intro hcontra
        apply hrun
        have : ((rest.drop 10).takeWhile isTsChar) = [] := by
          have := congrArg String.data hcontra
          simpa using this
        simp [this]
    · rw [if_neg hc] at h
      exact ih h

lemma computeThreadTs_ne_empty {m : RawMatch} {t : String}
    (h : computeThreadTs m = some t) : t ≠ "" := by
  unfold computeThreadTs at h
  by_cases htt : jsTruthy m.thread_ts
  · simp [htt] at h
    cases hm : m.thread_ts with
    | none => simp [jsTruthy, hm] at htt
    | some s =>
      simp [jsTruthy, hm] at htt
      simp [hm] at h
      subst h
      exact htt
  · simp [htt] at h
    by_cases hp : jsTruthy m.permalink
    · simp [hp] at h
      cases hext : extractThreadTs ((m.permalink.getD "").data) with
      | none => simp [hext] at h
      | some u =>
        simp [hext] at h
        subst h
        exact extractThreadTs_ne_empty hext
    · simp [hp] at h

/-- **C3.** A missing `thread_ts` is recovered from the permalink's
`[?&]thread_ts=([0-9.]+)` pattern; an absent `thread_ts` (in particular with
no permalink) classifies as not threaded; a derived `thread_ts` classifies as
thread reply exactly when it differs from the match's own `ts`. -/
theorem thread_link_reconstruction (m : RawMatch) :
    (jsTruthy m.thread_ts = false → ∀ p t, m.permalink = some p →
      extractThreadTs p.data = some t →
      (formatMessageMatch m).thread_ts = some t) ∧
    ((formatMessageMatch m).thread_ts = none →
      (formatMessageMatch m).is_thread_reply = false) ∧
    (jsTruthy m.thread_ts = false → m.permalink = none →
      (formatMessageMatch m).thread_ts = none ∧
      (formatMessageMatch m).is_thread_reply = false) ∧
    (∀ t, (formatMessageMatch m).thread_ts = some t →
      (formatMessageMatch m).is_thread_reply = decide (t ≠ m.ts)) := by
  refine ⟨?_, ?_, ?_, ?_⟩
  · intro htt p t hp hext
    have hpne : p ≠ "" := by
      intro hcontra
      subst hcontra
      simp [show ("" : String).data = [] from rfl, extractThreadTs] at hext
    have hptruthy : jsTruthy (some p) = true := by simp [jsTruthy, hpne]
    show computeThreadTs m = some t
    unfold computeThreadTs
    rw [htt, hp]
    simp [hptruthy, hext]
  · intro hnone
    have : computeThreadTs m = none := hnone
    simp [formatMessageMatch, this, jsTruthy]
  · intro htt hp
    have hts : computeThreadTs m = none := by
      unfold computeThreadTs
      rw [htt, hp]
      simp [jsTruthy]
    exact ⟨hts, by simp [formatMessageMatch, hts, jsTruthy]⟩
  · intro t hsome
    have hts : computeThreadTs m = some t := hsome
    have hne : t ≠ "" := computeThreadTs_ne_empty hts
    have htruthy : jsTruthy (computeThreadTs m) = true := by
      simp [hts, jsTruthy, hne]
    simp [formatMessageMatch, hts, jsTruthy, hne]

/-- The spec's thread-reconstruction example match: no explicit `thread_ts`,
permalink carrying `thread_ts=1699999999.000100`, own
`ts = 1700000000.000100`. -/
def exampleMatch : RawMatch :=
  { ts := "1700000000.000100"
    text := some "hello"
    username := some "alice"
    user := some "U1"
    channel_id := some "C1"
    channel_name := some "general"
    permalink := some
      "https://acme.slack.com/archives/C1/p1700000000000100?thread_ts=1699999999.000100&cid=C1"
    thread_ts := none
    reply_count := none }

/-- **C3 witness.** On the spec's example the derived `thread_ts` is
`1699999999.000100` and the match is classified as a thread reply. -/
theorem thread_link_reconstruction_witness :
    (formatMessageMatch exampleMatch).thread_ts = some "1699999999.000100" ∧
    (formatMessageMatch exampleMatch).is_thread_reply = true := by
  have h := thread_link_reconstruction exampleMatch
  refine ⟨?_, ?_⟩
  · exact h.1 rfl
      "https://acme.slack.com/archives/C1/p1700000000000100?thread_ts=1699999999.000100&cid=C1"
      "1699999999.000100" rfl (by decide)
  · have h1 : (formatMessageMatch exampleMatch).thread_ts =
        some "1699999999.000100" := h.1 rfl
      "https://acme.slack.com/archives/C1/p1700000000000100?thread_ts=1699999999.000100&cid=C1"
      "1699999999.000100" rfl (by decide)
    have h4 := h.2.2.2 "1699999999.000100" h1
    rw [h4]
    decide

/-! ## Auth strategy resolver and request dispatch (`SlackClient.request`,
`standardRequest`, `browserRequest` — src/lib/slack-client.ts) -/

/-- The workspace credential union from src/types/index.ts: the `auth_type`
tag discriminates `StandardAuthConfig` from `BrowserAuthConfig`. -/
inductive WorkspaceConfigE
  | standard (workspace_id workspace_name token token_type : String)
  | browser (workspace_id workspace_name workspace_url xoxd_token xoxc_token : String)
deriving DecidableEq, Repr

/-- The HTTP call a dispatch produces: a bearer-token call through the
web-API client, or the hand-built form-encoded POST of `browserRequest`. -/
inductive IssuedRequest
  | webApiCall (bearerToken method : String) (params : List (String × String))
  | browserPost (url cookie contentType origin userAgent : String)
      (body : List (String × String))
deriving DecidableEq, Repr

/-- The fixed descriptive client identifier sent by `browserRequest`. -/
def userAgentString : String := "Mozilla/5.0 (compatible; SlackCLI/0.1.0)"

/-- A character left unescaped by JS `encodeURIComponent`. -/
def uriUnreservedChar (c : Char) : Bool :=
  c.isAlpha || c.isDigit || c == '-' || c == '_' || c == '.' || c == '!' ||
    c == '~' || c == '*' || c == Char.ofNat 39 || c == '(' || c == ')'

/-- Upper-case hex digit for a value below 16. -/
def hexDigit (n : Nat) : Char :=
  if n < 10 then Char.ofNat (48 + n) else Char.ofNat (55 + n)

/-- UTF-8 bytes of a character (as `Nat`s below 256). -/
def utf8Bytes (c : Char) : List Nat :=
  let n := c.toNat
  if n < 128 then [n]
  else if n < 2048 then [192 + n / 64, 128 + n % 64]
  else if n < 65536 then [224 + n / 4096, 128 + (n / 64) % 64, 128 + n % 64]
  else [240 + n / 262144, 128 + (n / 4096) % 64, 128 + (n / 64) % 64, 128 + n % 64]

/-- `%XX` escape of one byte. -/
def percentEncodeByte (b : Nat) : List Char :=
  ['%', hexDigit (b / 16), hexDigit (b % 16)]

/-- JS `encodeURIComponent`, as applied to the xoxd token before it is placed
in the `d=` cookie. -/
def encodeURIComponent (s : String) : String :=
  String.mk
    ((s.data.map fun c =>
      if uriUnreservedChar c then [c]
      else ((utf8Bytes c).map percentEncodeByte).flatten).flatten)

/-- The object literal `{token: xoxc, ...params}` fed to `URLSearchParams`:
keys of `base` keep their position but a spread key overrides the value;
remaining spread keys follow. -/
def jsObjectMerge (base over : List (String × String)) :
    List (String × String) :=
  (base.map fun kv => (kv.1, (over.lookup kv.1).getD kv.2)) ++
    over.filter fun kv => (base.lookup kv.1).isNone

/-- Embedding of `SlackClient.request`: the credential's tag alone routes the
call. A standard credential issues `webClient.apiCall(method, params)` with
its bearer token; a browser credential issues the form-encoded POST built by
`browserRequest` against `<workspace_url>/api/<method>` with the `d=` cookie,
fixed `Content-Type`, `Origin` and User-Agent headers, and the `token` body
field. -/
def clientRequest (cfg : WorkspaceConfigE) (method : String)
    (params : List (String × String)) : IssuedRequest :=
  match cfg with
  | .standard _ _ token _ => .webApiCall token method params
  | .browser _ _ wurl xoxd xoxc =>
    .browserPost (wurl ++ "/api/" ++ method)
      ("d=" ++ encodeURIComponent xoxd)
      "application/x-www-form-urlencoded"
      "https://app.slack.com"
      userAgentString
      (jsObjectMerge [("token", xoxc)] params)

lemma lookup_none_key_ne {l : List (String × String)}
    (h : l.lookup "token" = none) : ∀ kv ∈ l, (kv.1 == "token") = false := by
  induction l with
  | nil => simp
  | cons a t ih =>
    intro kv hkv
    rw [List.lookup] at h
    by_cases hk : ("token" == a.1) = true
    · simp [hk] at h
    · rcases List.mem_cons.mp hkv with hkv | hkv
      · subst hkv
        simpa [BEq.comm] using hk
      · exact ih (by simpa [hk] using h) kv hkv

lemma jsObjectMerge_token_free {params : List (String × String)}
    (h : params.lookup "token" = none) (xoxc : String) :
    jsObjectMerge [("token", xoxc)] params = ("token", xoxc) :: params := by
  unfold jsObjectMerge
  have hkeys := lookup_none_key_ne h
  have hfilter : (params.filter fun kv =>
      (([("token", xoxc)] : List (String × String)).lookup kv.1).isNone) = params := by
    rw [List.filter_eq_self]
    intro kv hkv
    simp [List.lookup, hkeys kv hkv]
  simp [h, hfilter]

/-- **C5.** The request strategy is selected solely by the credential's tag:
a standard credential yields a bearer-token web-API call; a browser credential
yields a form-encoded POST to `<workspace_url>/api/<method>` with the
URL-encoded xoxd token in a `d=` cookie, the xoxc token as the `token` body
field, and the fixed client identifier string. -/
theorem request_strategy_selected_by_tag (method : String)
    (params : List (String × String)) :
    (∀ wid wname token ttype,
      clientRequest (WorkspaceConfigE.standard wid wname token ttype) method params =
        IssuedRequest.webApiCall token method params) ∧
    (∀ wid wname wurl xoxd xoxc, params.lookup "token" = none →
      clientRequest (WorkspaceConfigE.browser wid wname wurl xoxd xoxc) method params =
        IssuedRequest.browserPost (wurl ++ "/api/" ++ method)
          ("d=" ++ encodeURIComponent xoxd)
          "application/x-www-form-urlencoded"
          "https://app.slack.com"
          userAgentString
          (("token", xoxc) :: params)) := by
  refine ⟨fun _ _ _ _ => rfl, ?_⟩
  intro wid wname wurl xoxd xoxc h
  simp [clientRequest, jsObjectMerge_token_free h]

/-- **C5 witness.** A concrete browser-credential dispatch of
`chat.postMessage` produces the expected form-encoded POST. -/
theorem request_strategy_selected_by_tag_witness :
    clientRequest
      (WorkspaceConfigE.browser "T1" "acme" "https://acme.slack.com"
        "xoxd-AAA" "xoxc-BBB")
      "chat.postMessage" [("channel", "C1"), ("text", "hi")] =
    IssuedRequest.browserPost "https://acme.slack.com/api/chat.postMessage"
      "d=xoxd-AAA" "application/x-www-form-urlencoded" "https://app.slack.com"
      userAgentString
      [("token", "xoxc-BBB"), ("channel", "C1"), ("text", "hi")] := by
  have h := (request_strategy_selected_by_tag "chat.postMessage"
    [("channel", "C1"), ("text", "hi")]).2 "T1" "acme" "https://acme.slack.com"
    "xoxd-AAA" "xoxc-BBB" (by decide)
  rw [h]
  decide

/-! ## Output pipeline (`output`, src/lib/output.ts, jq-capable version) and
the messages send action (src/commands/messages.ts) -/

/-- The three output modes. -/
inductive OutputFormat
  | json
  | pretty
  | schema
deriving DecidableEq, Repr

/-- Observable effects of a command run: a network request, a stdout line, a
stderr line, a process exit. -/
inductive Ev
  | net (op : String)
  | out (s : String)
  | errOut (s : String)
  | exited (code : Nat)
deriving DecidableEq, Repr

/-- The rejection text printed by `output` for `--jq` with `--format=pretty`. -/
def prettyJqRejectMsg : String :=
  "Error: --jq can only be used with --format=json (the default format)"

/-- Embedding of `output(data, schema, format, prettyFormatter, jqExpr)`:
`jsonData`, `schemaJson` and `prettyRendered` are the three serializations of
the already-computed result; `jqResult` is the outcome of the external jq
process on the serialized data. In `json` mode with a filter, a filter failure
prints the error message and exits 1; `pretty` mode with a filter is rejected
with `prettyJqRejectMsg` and exit 1. -/
def outputEffects (format : OutputFormat) (jqExpr : Option String)
    (jsonData schemaJson prettyRendered : String)
    (jqResult : Except String String) : List Ev :=
  match format with
  | .json =>
    match jqExpr with
    | some _ =>
      match jqResult with
      | .ok s => [.out s.trim]
      | .error msg => [.errOut msg, .exited 1]
    | none => [.out jsonData]
  | .schema => [.out schemaJson]
  | .pretty =>
    match jqExpr with
    | some _ => [.errOut prettyJqRejectMsg, .exited 1]
    | none => [.out prettyRendered]

/-- Inputs of one `messages send` invocation (spinner rendering is a no-op for
the effect trace; `dataJson`/`schemaJson`/`prettyRendered` are the
serializations handed to `output`; `jqResult` is the external jq outcome). -/
structure SendCtx where
  allowed_targets : Option (List String)
  recipientId : String
  message : String
  format : OutputFormat
  jq : Option String
  dataJson : String
  schemaJson : String
  prettyRendered : String
  jqResult : Except String String

/-- `config.allowed_targets && config.allowed_targets.length > 0`. -/
def allowedTargetsConfigured : Option (List String) → Bool
  | some l => decide (0 < l.length)
  | none => false

/-- The recipient passes the allowed-targets gate: either the list is not
configured (absent or empty) or it contains the recipient id. -/
def allowedPass (allowed : Option (List String)) (recipient : String) : Bool :=
  if allowedTargetsConfigured allowed then (allowed.getD []).contains recipient
  else true

/-- Effects of the blocked branch of the allowed-targets gate: the error
lines, then `process.exit(1)`; no network request is ever issued. -/
def messagesSendBlockedEvents (c : SendCtx) : List Ev :=
  [.errOut ("Posting to " ++ c.recipientId ++
      " is not allowed by workspace configuration."),
    .errOut ("\nAllowed targets: " ++
      String.intercalate ", " (c.allowed_targets.getD [])),
    .errOut "\nTo modify allowed targets, edit ~/.config/slackcli/workspaces.json",
    .errOut "See \x27slackcli messages send --help\x27 for configuration details.",
    .exited 1]

/-- JS `String.prototype.startsWith`. -/
def strStartsWith (s pre : String) : Bool := decide (pre.data <+: s.data)

/-- Effects of the send path once the gate passes: a `conversations.open`
request when the recipient is a user id (`U...`), then `chat.postMessage`,
then the output pipeline on the response. -/
def messagesSendProceed (c : SendCtx) : List Ev :=
  (if strStartsWith c.recipientId "U" then [Ev.net "conversations.open"] else []) ++
    [Ev.net "chat.postMessage"] ++
    outputEffects c.format c.jq c.dataJson c.schemaJson c.prettyRendered c.jqResult

/-- Embedding of the `messages send` action: schema mode prints the schema and
returns; otherwise the allowed-targets gate either blocks (stderr + exit 1,
no network) or the send proceeds. -/
def messagesSendTrace (c : SendCtx) : List Ev :=
  if c.format = OutputFormat.schema then [Ev.out c.schemaJson]
  else if allowedPass c.allowed_targets c.recipientId then messagesSendProceed c
  else messagesSendBlockedEvents c

/-- Is this event the pretty+jq rejection? -/
def isPrettyJqRejection : Ev → Bool
  | .errOut s => s == prettyJqRejectMsg
  | _ => false

/-- Is this event a network request? -/
def isNetEv : Ev → Bool
  | .net _ => true
  | _ => false

/-- Formalization of claim C6 on a trace: the pretty+jq rejection occurs and
no network request precedes it. -/
def rejectedBeforeAnyNetwork (t : List Ev) : Bool :=
  t.any isPrettyJqRejection &&
    (t.takeWhile fun e => !(isPrettyJqRejection e)).all fun e => !(isNetEv e)

/-- A concrete `messages send --format=pretty --jq .ts` invocation to a plain
channel id with no allowed-targets restriction. -/
def prettyJqCtx : SendCtx :=
  { allowed_targets := none
    recipientId := "C123"
    message := "hi"
    format := OutputFormat.pretty
    jq := some ".ts"
    dataJson := "data-json"
    schemaJson := "schema-json"
    prettyRendered := "Message timestamp: 1"
    jqResult := Except.error "unused" }

/-- **C6 counterexample.** On the concrete pretty+jq send, `chat.postMessage`
is issued first and the rejection only happens afterwards, so the claim "the
combination is rejected before any network call" fails at this input. -/
theorem pretty_jq_rejection_after_network_counterexample :
    messagesSendTrace prettyJqCtx =
      [Ev.net "chat.postMessage", Ev.errOut prettyJqRejectMsg, Ev.exited 1] ∧
    rejectedBeforeAnyNetwork (messagesSendTrace prettyJqCtx) = false := by
  decide

/-- **C6 (amended).** Requesting the filter together with pretty rendering is
rejected with an error and exit 1, but only at output time: the command's
network calls (`conversations.open` for a user recipient, `chat.postMessage`)
have already been issued when the rejection fires. -/
theorem pretty_jq_rejected_at_output_time (c : SendCtx)
    (hf : c.format = OutputFormat.pretty) (hj : c.jq.isSome = true)
    (ha : allowedPass c.allowed_targets c.recipientId = true) :
    messagesSendTrace c =
      (if strStartsWith c.recipientId "U" then [Ev.net "conversations.open"]
        else []) ++
      [Ev.net "chat.postMessage", Ev.errOut prettyJqRejectMsg, Ev.exited 1] := by
  obtain ⟨e, he⟩ := Option.isSome_iff_exists.mp hj
  simp only [messagesSendTrace, hf, ha, messagesSendProceed, outputEffects, he]
  by_cases hu : strStartsWith c.recipientId "U" <;> simp [hu]

/-- **C6 witness (amended claim).** The concrete pretty+jq send issues its
`chat.postMessage` call and then is rejected with exit 1. -/
theorem pretty_jq_rejected_at_output_time_witness :
    messagesSendTrace prettyJqCtx =
      [Ev.net "chat.postMessage", Ev.errOut prettyJqRejectMsg, Ev.exited 1] := by
  have h := pretty_jq_rejected_at_output_time prettyJqCtx rfl rfl (by decide)
  rw [h]
  simp [show strStartsWith prettyJqCtx.recipientId "U" = false from by decide]

/-- **C7.** When the external jq filter fails in json mode, the pipeline
prints only the filter's error text and exits 1: the emitted output neither
contains an `Expected schema` section nor the schema serialization, although
the repository's own output test demands both. -/
theorem jq_failure_prints_no_schema :
    outputEffects OutputFormat.json (some ".conversations[]") "data-json"
        "expected-schema-json" "pretty-render"
        (Except.error "jq error: Cannot index array with string") =
      [Ev.errOut "jq error: Cannot index array with string", Ev.exited 1] ∧
    strContains "jq error: Cannot index array with string" "Expected schema" =
      false ∧
    strContains "jq error: Cannot index array with string"
      "expected-schema-json" = false := by
  refine ⟨rfl, by decide, by decide⟩

/-- **C10.** With a configured non-empty `allowed_targets` list that misses
the recipient, `messages send` emits its errors and exits 1 without issuing
any network request; with the list absent or empty every recipient passes and
`chat.postMessage` is issued. -/
theorem messages_send_allowed_targets_gate (c : SendCtx)
    (hfmt : c.format ≠ OutputFormat.schema) :
    (∀ l, c.allowed_targets = some l → l ≠ [] →
      l.contains c.recipientId = false →
      messagesSendTrace c = messagesSendBlockedEvents c ∧
      Ev.exited 1 ∈ messagesSendTrace c ∧
      ∀ op, Ev.net op ∉ messagesSendTrace c) ∧
    ((c.allowed_targets = none ∨ c.allowed_targets = some []) →
      Ev.net "chat.postMessage" ∈ messagesSendTrace c) := by
  constructor
  · intro l hl hne hmiss
    have hconf : allowedTargetsConfigured (some l) = true := by
      rcases l with _ | ⟨a, t⟩
      · exact absurd rfl hne
      · simp [allowedTargetsConfigured]
    have hmiss2 : c.recipientId ∉ l := by simpa using hmiss
    have hpass : allowedPass c.allowed_targets c.recipientId = false := by
      simp [allowedPass, hl, hconf, hmiss2]
    have htrace : messagesSendTrace c = messagesSendBlockedEvents c := by
      simp [messagesSendTrace, hfmt, hpass]
    refine ⟨htrace, ?_, ?_⟩
    · rw [htrace]
      simp [messagesSendBlockedEvents]
    · intro op
      rw [htrace]
      simp [messagesSendBlockedEvents]
  · intro hopt
    have hconf : allowedTargetsConfigured c.allowed_targets = false := by
      rcases hopt with h | h <;> simp [h, allowedTargetsConfigured]
    have hpass : allowedPass c.allowed_targets c.recipientId = true := by
      simp [allowedPass, hconf]
    simp [messagesSendTrace, hfmt, hpass, messagesSendProceed]

/-- A concrete send blocked by `allowed_targets = ["C999"]`. -/
def blockedCtx : SendCtx :=
  { allowed_targets := some ["C999"]
    recipientId := "C123"
    message := "hi"
    format := OutputFormat.json
    jq := none
    dataJson := "data-json"
    schemaJson := "schema-json"
    prettyRendered := "Message timestamp: 1"
    jqResult := Except.error "unused" }

/-- **C10 witness.** With `allowed_targets = ["C999"]` and recipient `C123`
the send is blocked with exit 1 and no network request; with no
`allowed_targets` the same send issues `chat.postMessage`. -/
theorem messages_send_allowed_targets_gate_witness :
    (messagesSendTrace blockedCtx = messagesSendBlockedEvents blockedCtx ∧
      Ev.exited 1 ∈ messagesSendTrace blockedCtx ∧
      ∀ op, Ev.net op ∉ messagesSendTrace blockedCtx) ∧
    Ev.net "chat.postMessage" ∈
      messagesSendTrace { blockedCtx with allowed_targets := none } := by
  constructor
  · exact (messages_send_allowed_targets_gate blockedCtx (by decide)).1
      ["C999"] rfl (by decide) (by decide)
  · exact (messages_send_allowed_targets_gate
      { blockedCtx with allowed_targets := none } (by decide)).2 (Or.inl rfl)

/-! ## Best-effort user enrichment (`SlackClient.getUsersInfo`,
`conversations list` — src/lib/slack-client.ts, src/commands/conversations.ts) -/

/-- The user fields the enrichment keeps. -/
structure UserE where
  id : String
  name : Option String
  real_name : Option String
  email : Option String
deriving DecidableEq, Repr

/-- A `users.info` response: `ok` flag and optional user payload. -/
structure UserInfoResp where
  ok : Bool
  user : Option UserE
deriving DecidableEq, Repr

/-- Embedding of `SlackClient.getUsersInfo`: iterate over the ids, try each
`users.info` lookup, push the user when the response is `ok` with a user
payload, silently skip a lookup that throws, and always return
`{ok: true, users}`. -/
def getUsersInfo (lookup : String → Except String UserInfoResp)
    (userIds : List String) : Bool × List UserE :=
  (true,
    userIds.filterMap fun uid =>
      match lookup uid with
      | .error _ => none
      | .ok r => if r.ok then r.user else none)

/-- The channel fields `conversations list` consumes. -/
structure ChannelE where
  id : String
  name : Option String
  is_im : Bool
  is_mpim : Bool
  is_private : Bool
  is_archived : Option Bool
  topic : Option String
  user : Option String
deriving DecidableEq, Repr

/-- `getChannelType` from src/commands/conversations.ts. -/
def getChannelType (ch : ChannelE) : String :=
  if ch.is_im then "im"
  else if ch.is_mpim then "mpim"
  else if ch.is_private then "private_channel"
  else "public_channel"

/-- One channel entry of the `conversations list` output. -/
structure ChannelOut where
  id : String
  name : Option String
  type : String
  is_archived : Option Bool
  topic : Option String
  user_id : Option String
deriving DecidableEq, Repr

/-- Deduplication preserving first occurrences (a JS `Set` built by
insertion). -/
def dedupKeepFirst : List String → List String
  | [] => []
  | a :: t => a :: dedupKeepFirst (t.filter fun x => x ≠ a)
termination_by l => l.length
decreasing_by
  simp only [List.length_cons]
  exact Nat.lt_succ_of_le (List.length_filter_le _ _)

/-- The DM user ids collected before enrichment: `ch.user` of every `is_im`
channel with a truthy user id, deduplicated in insertion order. -/
def dmUserIds (channels : List ChannelE) : List String :=
  dedupKeepFirst (channels.filterMap fun ch =>
    if ch.is_im && jsTruthy ch.user then ch.user else none)

/-- The `conversations list` output: the primary channel list plus the joined
enrichment result. -/
structure ConvListOutput where
  channels : List ChannelOut
  users_ok : Bool
  users : List UserE
deriving Repr

/-- Embedding of the `conversations list` action after the
`conversations.list` response: collect DM user ids, run the batched
enrichment when any exist, and build the output whose `channels` component
depends only on the fetched channels. -/
def conversationsListRun (lookup : String → Except String UserInfoResp)
    (channels : List ChannelE) : ConvListOutput :=
  let ids := dmUserIds channels
  let usersResp := if 0 < ids.length then getUsersInfo lookup ids else (true, [])
  { channels := channels.map fun ch =>
      { id := ch.id
        name := if jsTruthy ch.name then ch.name else none
        type := getChannelType ch
        is_archived := ch.is_archived
        topic := ch.topic
        user_id := ch.user }
    users_ok := usersResp.1
    users := usersResp.2 }

/-- **C9.** Batched enrichment is best-effort: the joined result is always
`ok`, its users are exactly the successfully fetched ones (lookup returned
`ok` with a payload; failed lookups are silently skipped), and the primary
channel output is produced independently of the lookup behaviour. -/
theorem users_enrichment_best_effort
    (lookup lookup2 : String → Except String UserInfoResp)
    (userIds : List String) (channels : List ChannelE) :
    (getUsersInfo lookup userIds).1 = true ∧
    (∀ u, u ∈ (getUsersInfo lookup userIds).2 ↔
      ∃ uid, uid ∈ userIds ∧
        ∃ r, lookup uid = Except.ok r ∧ r.ok = true ∧ r.user = some u) ∧
    (conversationsListRun lookup channels).channels =
      (conversationsListRun lookup2 channels).channels := by
  refine ⟨rfl, ?_, rfl⟩
  intro u
  simp only [getUsersInfo, List.mem_filterMap]
  constructor
  · rintro ⟨uid, hmem, hf⟩
    refine ⟨uid, hmem, ?_⟩
    cases hr : lookup uid with
    | error e => rw [hr] at hf; simp at hf
    | ok r =>
      rw [hr] at hf
      by_cases hok : r.ok = true
      · refine ⟨r, rfl, hok, ?_⟩
        simpa [hok] using hf
      · simp [hok] at hf
  · rintro ⟨uid, hmem, r, hr, hok, hu⟩
    exact ⟨uid, hmem, by simp [hr, hok, hu]⟩

/-! ## Curl-command token extractor (src/lib/curl-parser.ts — module not in
the sources at hand; modelled from the specification §4.4) -/

/-- A character valid inside a URL host name. -/
def isHostChar (c : Char) : Bool := c.isAlphanum || c == '-' || c == '.'

/-- A character that may appear inside a cookie/body token value (stops at
quotes, separators and whitespace). -/
def isTokenValueChar (c : Char) : Bool :=
  !(c == ';' || c == Char.ofNat 39 || c == '"' || c == '&' || c.isWhitespace)

/-- The remainder of the text after the first occurrence of `pat`. -/
def findAfter (pat : List Char) : List Char → Option (List Char)
  | [] => none
  | c :: rest =>
    if decide (pat <+: (c :: rest)) then some ((c :: rest).drop pat.length)
    else findAfter pat rest

/-- Hex digit value, upper or lower case. -/
def hexVal (c : Char) : Option Nat :=
  if c.isDigit then some (c.toNat - 48)
  else if 65 ≤ c.toNat && c.toNat ≤ 70 then some (c.toNat - 55)
  else if 97 ≤ c.toNat && c.toNat ≤ 102 then some (c.toNat - 87)
  else none

/-- Byte-wise `%XX` URL-decoding (ASCII token values are unchanged). -/
def percentDecodeChars : List Char → List Char
  | [] => []
  | '%' :: a :: b :: rest =>
    match hexVal a, hexVal b with
    | some x, some y => Char.ofNat (16 * x + y) :: percentDecodeChars rest
    | _, _ => '%' :: percentDecodeChars (a :: b :: rest)
  | c :: rest => c :: percentDecodeChars rest

/-- Modelled from the spec: the workspace URL is the first
`https://<subdomain>.<host>` substring; the workspace name is the subdomain
label. -/
def extractWorkspaceUrl (text : List Char) : Option (String × String) :=
  match findAfter "https://".data text with
  | none => none
  | some rest =>
    let host := rest.takeWhile isHostChar
    let sub := host.takeWhile fun c => c ≠ '.'
    if host.contains '.' && !sub.isEmpty then
      some ("https://" ++ String.mk host, String.mk sub)
    else none

/-- Modelled from the spec: the session token is the value of the `d=` cookie
assignment, URL-decoded, matching the fixed `xoxd-` prefix pattern. -/
def extractSessionToken (text : List Char) : Option String :=
  match findAfter "d=xoxd-".data text with
  | none => none
  | some rest =>
    some (String.mk (percentDecodeChars
      ("xoxd-".data ++ rest.takeWhile isTokenValueChar)))

/-- Modelled from the spec: the API token is the `token` body field or a bare
occurrence matching the fixed `xoxc-` prefix pattern. -/
def extractApiToken (text : List Char) : Option String :=
  match findAfter "token=xoxc-".data text with
  | some rest => some (String.mk ("xoxc-".data ++ rest.takeWhile isTokenValueChar))
  | none =>
    match findAfter "xoxc-".data text with
    | some rest => some (String.mk ("xoxc-".data ++ rest.takeWhile isTokenValueChar))
    | none => none

/-- The distinct failure for each missing required piece. -/
inductive CurlParseError
  | missingUrl
  | missingSessionToken
  | missingApiToken
deriving DecidableEq, Repr

/-- The parse result of the curl-command token extractor. -/
structure ParsedCurl where
  workspaceUrl : String
  workspaceName : String
  sessionToken : String
  apiToken : String
deriving DecidableEq, Repr

/-- Modelled from the spec: `parseCurlCommand` (src/lib/curl-parser.ts is not
among the sources at hand, only its callers and README). Order-independent
extraction of the workspace URL/name, the `d=` cookie session token and the
`token` body field; a `ParseError` when any required piece is missing. -/
def parseCurlCommand (text : String) : Except CurlParseError ParsedCurl :=
  match extractWorkspaceUrl text.data with
  | none => Except.error CurlParseError.missingUrl
  | some (url, name) =>
    match extractSessionToken text.data with
    | none => Except.error CurlParseError.missingSessionToken
    | some sess =>
      match extractApiToken text.data with
      | none => Except.error CurlParseError.missingApiToken
      | some api => Except.ok ⟨url, name, sess, api⟩

/-- `pat` occurs in `text` at position `i` and at no earlier position: the
occurrence the extractor adopts. -/
def firstOccurrenceAt (pat text : List Char) (i : Nat) : Prop :=
  pat <+: text.drop i ∧ ∀ j, j < i → ¬ pat <+: text.drop j

/-- `pat` occurs nowhere in `text`. -/
def noOccurrence (pat text : List Char) : Prop :=
  ∀ i, i < text.length → ¬ pat <+: text.drop i

instance (pat text : List Char) (i : Nat) :
    Decidable (firstOccurrenceAt pat text i) := by
  unfold firstOccurrenceAt
  infer_instance

instance (pat text : List Char) : Decidable (noOccurrence pat text) := by
  unfold noOccurrence
  infer_instance

lemma findAfter_of_firstOccurrence {pat text : List Char} {i : Nat}
    (hne : pat ≠ []) (h : firstOccurrenceAt pat text i) :
    findAfter pat text = some (text.drop (i + pat.length)) := by
  induction text generalizing i with
  | nil =>
    exfalso
    have h1 := h.1
    rw [List.drop_nil] at h1
    rcases h1 with ⟨t, ht⟩
    exact hne (List.append_eq_nil.mp ht).1
  | cons c rest ih =>
    rcases h with ⟨hpre, hmin⟩
    match i with
    | 0 =>
      rw [List.drop_zero] at hpre
      simp only [findAfter]
      rw [if_pos (decide_eq_true hpre)]
      simp
    | i' + 1 =>
      have h0 : ¬ pat <+: (c :: rest) := by
        simpa using hmin 0 (Nat.succ_pos i')
      simp only [findAfter]
      rw [if_neg (by simpa using h0)]
      have hshift : firstOccurrenceAt pat rest i' := by
        constructor
        · simpa [List.drop_succ_cons] using hpre
        · intro j hj
          simpa [List.drop_succ_cons] using hmin (j + 1) (Nat.succ_lt_succ hj)
      rw [show i' + 1 + pat.length = (i' + pat.length) + 1 from by omega,
        List.drop_succ_cons]
      exact ih hshift

lemma findAfter_eq_none {pat text : List Char}
    (h : noOccurrence pat text) : findAfter pat text = none := by
  induction text with
  | nil => rfl
  | cons c rest ih =>
    have h0 : ¬ pat <+: (c :: rest) := by simpa using h 0 (by simp)
    simp only [findAfter]
    rw [if_neg (by simpa using h0)]
    exact ih fun i hi => by
      simpa [List.drop_succ_cons] using h (i + 1) (by simpa using Nat.succ_lt_succ hi)

lemma noOccurrence_token_of_xoxc {text : List Char}
    (h : noOccurrence "xoxc-".data text) :
    noOccurrence "token=xoxc-".data text := by
  intro i hi hcontra
  rcases hcontra with ⟨t, ht⟩
  have hlen := congrArg List.length ht
  rw [List.length_append, List.length_drop,
    (by decide : ("token=xoxc-".data).length = 11)] at hlen
  have hsplit : ("token=xoxc-").data = "token=".data ++ "xoxc-".data := by decide
  apply h (i + 6) (by omega)
  have hdd : (text.drop i).drop 6 = text.drop (i + 6) := by
    rw [List.drop_drop, Nat.add_comm]
  rw [← hdd, ← ht, hsplit, List.append_assoc,
    (by decide : (6 : Nat) = ("token=".data).length), List.drop_left]
  exact ⟨t, rfl⟩

/-- The spec's curl extraction example. -/
def curlExampleText : String :=
  "curl \"https://acme.example.com/api/x\" -H \"Cookie: d=xoxd-AAA\" --data-raw \"token=xoxc-BBB\""

/-- The example with the workspace URL removed. -/
def curlNoUrlText : String :=
  "curl -H \"Cookie: d=xoxd-AAA\" --data-raw \"token=xoxc-BBB\""

/-- The example with the session-token cookie removed. -/
def curlNoSessionText : String :=
  "curl \"https://acme.example.com/api/x\" --data-raw \"token=xoxc-BBB\""

/-- The example with the API token removed. -/
def curlNoApiText : String :=
  "curl \"https://acme.example.com/api/x\" -H \"Cookie: d=xoxd-AAA\""

/-- The example with a second, earlier `d=` cookie assignment prepended inside
the `Cookie` header: it still contains `d=xoxd-AAA`, `token=xoxc-BBB` and the
URL. -/
def curlTwoCookiesText : String :=
  "curl \"https://acme.example.com/api/x\" -H \"Cookie: d=xoxd-OTHER; d=xoxd-AAA\" --data-raw \"token=xoxc-BBB\""

/-- **C4 counterexample.** A text containing the cookie assignment
`d=xoxd-AAA`, the body field `token=xoxc-BBB` and the URL
`https://acme.example.com/api/x` — but with an earlier `d=xoxd-OTHER` cookie —
parses to sessionToken `xoxd-OTHER`, not `xoxd-AAA`: containment alone does
not determine the result, the extractor adopts the first occurrence. -/
theorem curl_extraction_counterexample :
    strContains curlTwoCookiesText "d=xoxd-AAA" = true ∧
    strContains curlTwoCookiesText "token=xoxc-BBB" = true ∧
    strContains curlTwoCookiesText "https://acme.example.com/api/x" = true ∧
    parseCurlCommand curlTwoCookiesText =
      Except.ok ⟨"https://acme.example.com", "acme", "xoxd-OTHER", "xoxc-BBB"⟩ ∧
    (⟨"https://acme.example.com", "acme", "xoxd-OTHER", "xoxc-BBB"⟩ : ParsedCurl) ≠
      ⟨"https://acme.example.com", "acme", "xoxd-AAA", "xoxc-BBB"⟩ := by
  refine ⟨by decide, by decide, by decide, rfl, by decide⟩

/-- **C4 (amended).** For every input text in which the *first* occurrence of
each extraction pattern carries the claimed piece — the first
`https://` URL is `https://acme.example.com/api/x`, the first `d=` cookie
assignment with the known prefix is `d=xoxd-AAA`, and the first `token` body
field is `token=xoxc-BBB` — parse returns sessionToken `xoxd-AAA`, apiToken
`xoxc-BBB`, workspaceUrl `https://acme.example.com` and workspaceName `acme`;
and for every input missing the workspace URL, the session token, or the API
token, parse fails with a `ParseError`. -/
theorem curl_extraction_first_match_and_failures (text : List Char) :
    (∀ i j k,
      firstOccurrenceAt "https://".data text i →
      (text.drop (i + 8)).takeWhile isHostChar = "acme.example.com".data →
      firstOccurrenceAt "d=xoxd-".data text j →
      (text.drop (j + 7)).takeWhile isTokenValueChar = "AAA".data →
      firstOccurrenceAt "token=xoxc-".data text k →
      (text.drop (k + 11)).takeWhile isTokenValueChar = "BBB".data →
      parseCurlCommand (String.mk text) =
        Except.ok ⟨"https://acme.example.com", "acme", "xoxd-AAA", "xoxc-BBB"⟩) ∧
    (noOccurrence "https://".data text →
      parseCurlCommand (String.mk text) =
        Except.error CurlParseError.missingUrl) ∧
    (noOccurrence "d=xoxd-".data text →
      ∃ e, parseCurlCommand (String.mk text) = Except.error e) ∧
    (noOccurrence "xoxc-".data text →
      ∃ e, parseCurlCommand (String.mk text) = Except.error e) := by
  refine ⟨?_, ?_, ?_, ?_⟩
  · intro i j k h1 h1t h2 h2t h3 h3t
    have hu := findAfter_of_firstOccurrence (by decide) h1
    rw [(by decide : ("https://".data).length = 8)] at hu
    have hd := findAfter_of_firstOccurrence (by decide) h2
    rw [(by decide : ("d=xoxd-".data).length = 7)] at hd
    have htk := findAfter_of_firstOccurrence (by decide) h3
    rw [(by decide : ("token=xoxc-".data).length = 11)] at htk
    have hw : extractWorkspaceUrl text = some ("https://acme.example.com", "acme") := by
      simp +decide [extractWorkspaceUrl, hu, h1t]
    have hs : extractSessionToken text = some "xoxd-AAA" := by
      simp +decide [extractSessionToken, hd, h2t]
    have ha : extractApiToken text = some "xoxc-BBB" := by
      simp +decide [extractApiToken, htk, h3t]
    show parseCurlCommand ⟨text⟩ = _
    simp [parseCurlCommand, hw, hs, ha]
  · intro h
    have hwn : extractWorkspaceUrl text = none := by
      simp [extractWorkspaceUrl, findAfter_eq_none h]
    show parseCurlCommand ⟨text⟩ = _
    simp [parseCurlCommand, hwn]
  · intro h
    have hsn : extractSessionToken text = none := by
      simp [extractSessionToken, findAfter_eq_none h]
    show ∃ e, parseCurlCommand ⟨text⟩ = Except.error e
    cases hw : extractWorkspaceUrl text with
    | none =>
      exact ⟨CurlParseError.missingUrl, by simp [parseCurlCommand, hw]⟩
    | some p =>
      rcases p with ⟨url, name⟩
      exact ⟨CurlParseError.missingSessionToken,
        by simp [parseCurlCommand, hw, hsn]⟩
  · intro h
    have han : extractApiToken text = none := by
      simp [extractApiToken,
        findAfter_eq_none (noOccurrence_token_of_xoxc h),
        findAfter_eq_none h]
    show ∃ e, parseCurlCommand ⟨text⟩ = Except.error e
    cases hw : extractWorkspaceUrl text with
    | none =>
      exact ⟨CurlParseError.missingUrl, by simp [parseCurlCommand, hw]⟩
    | some p =>
      rcases p with ⟨url, name⟩
      cases hs : extractSessionToken text with
      | none =>
        exact ⟨CurlParseError.missingSessionToken,
          by simp [parseCurlCommand, hw, hs]⟩
      | some s =>
        exact ⟨CurlParseError.missingApiToken,
          by simp [parseCurlCommand, hw, hs, han]⟩

/-- **C4 witness (amended claim).** On the spec's example text the pieces are
the first occurrences of their patterns (at offsets 6, 50 and 74) and parse
returns the expected record; the missing-URL, missing-session-token and
missing-API-token variants each fail with a `ParseError`. -/
theorem curl_extraction_first_match_and_failures_witness :
    parseCurlCommand curlExampleText =
      Except.ok ⟨"https://acme.example.com", "acme", "xoxd-AAA", "xoxc-BBB"⟩ ∧
    parseCurlCommand curlNoUrlText = Except.error CurlParseError.missingUrl ∧
    (∃ e, parseCurlCommand curlNoSessionText = Except.error e) ∧
    (∃ e, parseCurlCommand curlNoApiText = Except.error e) := by
  refine ⟨?_, ?_, ?_, ?_⟩
  · exact (curl_extraction_first_match_and_failures curlExampleText.data).1
      6 50 74 (by decide) (by decide) (by decide) (by decide) (by decide)
      (by decide)
  · exact (curl_extraction_first_match_and_failures curlNoUrlText.data).2.1
      (by decide)
  · exact (curl_extraction_first_match_and_failures curlNoSessionText.data).2.2.1
      (by decide)
  · exact (curl_extraction_first_match_and_failures curlNoApiText.data).2.2.2
      (by decide)

end SlackCLI
